import Mathlib

/-!
# Shallow embedding of `src/server.js` (citf-backend)

The repository is an Express HTTP backend managing three flat collections
(projects, carousel images, videos), each mirrored to a JSON file on disk,
plus an `uploads/` directory of image files.

Modelling conventions:

* The in-memory arrays `projects`, `carouselImages`, `videos` and the parsed
  contents of their backing JSON files are fields of `ServerState`.  A disk
  field holds the value the JSON file deserializes to; `JSON.stringify` is
  injective on these record types (an `Option` field models a JS field that
  may be `undefined`; `JSON.stringify` omits it and `res.json` does the same),
  so equality of the parsed values is equality of the file bytes produced by
  `saveProjects` / `saveCarouselImages` / `saveVideos`.
* The `uploads/` directory is the list of local paths (relative to
  `__dirname`) of the files present, field `uploads`.  Multer's disk storage
  writes each uploaded file to `uploads/<generated name>` *before* the route
  handler runs, so each handler embedding first appends the saved files.
* `uuidv4()` is an external generator: handlers take the generated id as an
  explicit argument; the trace model (`runOps`) threads a generator
  `Nat → String` and a call counter.
* `new URL(url)` (WHATWG URL parsing) is external: handlers take a predicate
  `validURL : String → Bool` deciding whether the constructor succeeds.
* `fs.unlinkSync` on an existing file can throw (permissions, busy file, …);
  this is modelled by an oracle `u : String → Bool` (`u p = true` means
  unlinking path `p` throws even though it exists).  A synchronous throw in
  an Express 4 handler reaches the error middleware, which answers
  500 `Internal Server Error`; memory mutations already performed stay.
* `url.replace(base, '')` (JS `String.prototype.replace` with a string
  pattern) removes the *first* occurrence of the pattern; `stripFirstOcc`
  implements exactly that.  `path.join(__dirname, ·)` is dropped: all local
  paths are kept relative to `__dirname`.
-/

/-- A project record: `{ id, title, description, imageUrls }` as built by
`POST /api/projects` (src/server.js:78-83).  `title`/`description` come from
`req.body` and may be `undefined`, hence `Option String`. -/
structure Project where
  id : String
  title : Option String
  description : Option String
  imageUrls : List String
deriving DecidableEq, Repr

/-- A carousel image record `{ _id, url }` (src/server.js:160-163). -/
structure CarouselImage where
  _id : String
  url : String
deriving DecidableEq, Repr

/-- A video record `{ id, url, title }` (src/server.js:226-230). -/
structure Video where
  id : String
  url : String
  title : String
deriving DecidableEq, Repr

/-- The whole mutable state of the process: the three in-memory arrays, the
parsed contents of their three backing JSON files, and the set of files
present in the uploads directory (local paths `uploads/<name>`). -/
structure ServerState where
  projects : List Project
  projectsDisk : List Project
  carouselImages : List CarouselImage
  carouselDisk : List CarouselImage
  videos : List Video
  videosDisk : List Video
  uploads : List String
deriving DecidableEq, Repr

/-- HTTP outcome of one handler, with the response body on success. -/
inductive ApiResult (α : Type) where
  /-- 200 with a JSON body. -/
  | ok (body : α)
  /-- 201 with the newly created record. -/
  | created (body : α)
  /-- 400 with `{ error: msg }`. -/
  | badRequest (msg : String)
  /-- 404 with `{ error: msg }`. -/
  | notFound (msg : String)
  /-- 500 `Internal Server Error` from the error middleware. -/
  | internalError
deriving DecidableEq, Repr

/-- Whether the handler completed successfully (2xx). -/
def ApiResult.success {α : Type} : ApiResult α → Bool
  | .ok _ => true
  | .created _ => true
  | _ => false

/-- JS truthiness of a `string | undefined` value: `undefined` and `""` are
falsy, every other string is truthy. -/
def truthy : Option String → Bool
  | none => false
  | some s => s != ""

/-- `http://localhost:${PORT}/` with the default `PORT = 10000`
(src/server.js:9). -/
def serverBase : String := "http://localhost:10000/"

/-- The public locator built for a saved upload `f`:
`http://localhost:${PORT}/uploads/${file.filename}` (src/server.js:76). -/
def mkUrl (f : String) : String := serverBase ++ ("uploads/" ++ f)

/-- The local path multer's disk storage writes the generated filename to,
relative to `__dirname`. -/
def localOf (f : String) : String := "uploads/" ++ f

/-- Remove the first occurrence of `pat` from a character list — the
behaviour of JS `String.prototype.replace(pat, '')` for a string pattern. -/
def stripFirstOcc (pat : List Char) : List Char → List Char
  | [] => []
  | c :: cs => if pat.isPrefixOf (c :: cs) then (c :: cs).drop pat.length
      else c :: stripFirstOcc pat cs

/-- `path.join(__dirname, url.replace(serverBase, ''))` (src/server.js:108,
135, 181), kept relative to `__dirname`. -/
def urlToLocal (url : String) : String :=
  String.mk (stripFirstOcc serverBase.data url.data)

/-- Find the first list element satisfying `f`, returning the elements
before it, the element, and the elements after it.  This is the combination
`findIndex` + indexed access used by the handlers: `splice(i, 1)` yields
`l ++ r`, and in-place mutation of the found element yields `l ++ x' :: r`. -/
def splitFirst {α : Type} (f : α → Bool) : List α → Option (List α × α × List α)
  | [] => none
  | x :: xs =>
    if f x then some ([], x, xs)
    else match splitFirst f xs with
      | none => none
      | some (l, y, r) => some (x :: l, y, r)

/-- The `forEach` deletion loop of the update/delete handlers
(src/server.js:107-112, 134-139): for each path, if the file exists it is
unlinked; an unlink throw (oracle `u`) aborts the loop, keeping the
deletions already performed.  Returns `(completed?, uploads after)`. -/
def deleteFiles (u : String → Bool) : List String → List String → Bool × List String
  | [], ups => (true, ups)
  | p :: ps, ups =>
    if ups.contains p then
      if u p then (false, ups)
      else deleteFiles u ps (ups.filter (fun q => q != p))
    else deleteFiles u ps ups

/-- `GET /api/projects` (src/server.js:65-67): returns the array as-is,
state untouched. -/
def getProjects (s : ServerState) : List Project × ServerState := (s.projects, s)

/-- `GET /api/carousel-images` (src/server.js:149-151). -/
def getCarouselImages (s : ServerState) : List CarouselImage × ServerState :=
  (s.carouselImages, s)

/-- `GET /api/videos` (src/server.js:207-209). -/
def getVideos (s : ServerState) : List Video × ServerState := (s.videos, s)

/-- `POST /api/projects` (src/server.js:70-88).  Multer has already saved
`files` (their generated names) into `uploads/`; with zero files the handler
answers 400, otherwise it builds the record with a fresh uuid `newId`,
pushes it and calls `saveProjects()`. -/
def postProject (newId : String) (title description : Option String)
    (files : List String) (s : ServerState) : ApiResult Project × ServerState :=
  let s1 := { s with uploads := s.uploads ++ files.map localOf }
  if files.length = 0 then
    (.badRequest "At least one image is required.", s1)
  else
    let newProject : Project :=
      { id := newId, title := title, description := description,
        imageUrls := files.map mkUrl }
    let projects1 := s1.projects ++ [newProject]
    (.created newProject,
      { s1 with projects := projects1, projectsDisk := projects1 })

/-- `PUT /api/projects/:id` (src/server.js:91-120).  Multer first saves any
new `files`; 404 if no record has the id; `title`/`description` are
overwritten only when truthy; with new files the current files are deleted
from disk (an unlink throw yields 500 with the field mutations already in
memory and the collection not persisted), the references are replaced and
`saveProjects()` runs. -/
def putProject (u : String → Bool) (pid : String) (title description : Option String)
    (files : List String) (s : ServerState) : ApiResult Project × ServerState :=
  let ups0 := s.uploads ++ files.map localOf
  match splitFirst (fun p => p.id == pid) s.projects with
  | none => (.notFound "Project not found", { s with uploads := ups0 })
  | some (l, p, r) =>
    let p1 : Project :=
      { p with
        title := if truthy title then title else p.title,
        description := if truthy description then description else p.description }
    if files.isEmpty then
      let projects1 := l ++ p1 :: r
      (.ok p1, { s with uploads := ups0, projects := projects1,
                        projectsDisk := projects1 })
    else
      match deleteFiles u (p.imageUrls.map urlToLocal) ups0 with
      | (false, ups1) =>
        let projects1 := l ++ p1 :: r
        (.internalError, { s with uploads := ups1, projects := projects1 })
      | (true, ups1) =>
        let p2 : Project := { p1 with imageUrls := files.map mkUrl }
        let projects1 := l ++ p2 :: r
        (.ok p2, { s with uploads := ups1, projects := projects1,
                          projectsDisk := projects1 })

/-- `DELETE /api/projects/:id` (src/server.js:124-144): 404 if absent;
delete the record's files from disk (throw ⇒ 500, nothing spliced or
saved), then `splice` + `saveProjects()`. -/
def deleteProject (u : String → Bool) (pid : String) (s : ServerState) :
    ApiResult String × ServerState :=
  match splitFirst (fun p => p.id == pid) s.projects with
  | none => (.notFound "Project not found", s)
  | some (l, p, r) =>
    match deleteFiles u (p.imageUrls.map urlToLocal) s.uploads with
    | (false, ups1) => (.internalError, { s with uploads := ups1 })
    | (true, ups1) =>
      let projects1 := l ++ r
      (.ok "Project deleted successfully",
        { s with uploads := ups1, projects := projects1,
                 projectsDisk := projects1 })

/-- `POST /api/carousel-images` (src/server.js:154-169): multer saves the
single file (when present) before the handler; 400 without a file, else a
new `{ _id, url }` record is pushed and `saveCarouselImages()` runs. -/
def postCarousel (newId : String) (file : Option String) (s : ServerState) :
    ApiResult CarouselImage × ServerState :=
  match file with
  | none => (.badRequest "No image uploaded", s)
  | some f =>
    let s1 := { s with uploads := s.uploads ++ [localOf f] }
    let newImage : CarouselImage := { _id := newId, url := mkUrl f }
    let imgs := s1.carouselImages ++ [newImage]
    (.created newImage,
      { s1 with carouselImages := imgs, carouselDisk := imgs })

/-- `DELETE /api/carousel-images/:id` (src/server.js:172-191): 404 if
absent; unlink the record's file if it exists (throw ⇒ 500), then `splice`
+ `saveCarouselImages()`. -/
def deleteCarousel (u : String → Bool) (pid : String) (s : ServerState) :
    ApiResult String × ServerState :=
  match splitFirst (fun c => c._id == pid) s.carouselImages with
  | none => (.notFound "Image not found", s)
  | some (l, c, r) =>
    match deleteFiles u [urlToLocal c.url] s.uploads with
    | (false, ups1) => (.internalError, { s with uploads := ups1 })
    | (true, ups1) =>
      let imgs := l ++ r
      (.ok "Image deleted successfully",
        { s with uploads := ups1, carouselImages := imgs,
                 carouselDisk := imgs })

/-- `POST /api/videos` (src/server.js:212-236): 400 when `url` or `title`
is falsy; 400 when `new URL(url)` throws (oracle `validURL`); otherwise a
record with a fresh uuid is pushed and `saveVideos()` runs. -/
def postVideo (validURL : String → Bool) (newId : String)
    (url title : Option String) (s : ServerState) : ApiResult Video × ServerState :=
  if truthy url && truthy title then
    let u0 := url.getD ""
    let t0 := title.getD ""
    if validURL u0 then
      let v : Video := { id := newId, url := u0, title := t0 }
      let vids := s.videos ++ [v]
      (.created v, { s with videos := vids, videosDisk := vids })
    else (.badRequest "Invalid URL format.", s)
  else (.badRequest "Both url and title are required.", s)

/-- `DELETE /api/videos/:id` (src/server.js:239-251): 404 if absent, else
`splice` + `saveVideos()`. -/
def deleteVideo (pid : String) (s : ServerState) : ApiResult String × ServerState :=
  match splitFirst (fun v => v.id == pid) s.videos with
  | none => (.notFound "Video not found", s)
  | some (l, _, r) =>
    let vids := l ++ r
    (.ok "Video deleted successfully",
      { s with videos := vids, videosDisk := vids })

/-! ## Lemmas about the helpers -/

theorem stripFirstOcc_append (pat rest : List Char) (h : pat ≠ []) :
    stripFirstOcc pat (pat ++ rest) = rest := by
  match pat, h with
  | a :: as, _ =>
    have hp : (a :: as).isPrefixOf (a :: (as ++ rest)) = true := by
      rw [← List.cons_append]
      exact List.isPrefixOf_iff_prefix.mpr (List.prefix_append _ _)
    rw [List.cons_append, stripFirstOcc, hp]
    simp only [if_true]
    rw [← List.cons_append, List.drop_left]

theorem urlToLocal_mkUrl (f : String) : urlToLocal (mkUrl f) = localOf f := by
  unfold urlToLocal mkUrl
  rw [String.data_append, stripFirstOcc_append _ _ (by decide)]
  rfl

theorem splitFirst_eq_none_of {α : Type} (f : α → Bool) (xs : List α)
    (h : ∀ x ∈ xs, f x = false) : splitFirst f xs = none := by
  induction xs with
  | nil => rfl
  | cons x xs ih =>
    simp [splitFirst, h x (List.mem_cons_self x xs),
      ih (fun y hy => h y (List.mem_cons_of_mem _ hy))]

theorem splitFirst_eq_some {α : Type} {f : α → Bool} :
    ∀ {xs l r : List α} {x : α}, splitFirst f xs = some (l, x, r) →
      xs = l ++ x :: r ∧ f x = true ∧ ∀ y ∈ l, f y = false := by
  intro xs
  induction xs with
  | nil => intro l r x h; simp [splitFirst] at h
  | cons a as ih =>
    intro l r x h
    by_cases ha : f a = true
    · rw [splitFirst, if_pos ha] at h
      obtain ⟨rfl, rfl, rfl⟩ := by simpa using h
      exact ⟨rfl, ha, by simp⟩
    · rw [splitFirst, if_neg ha] at h
      cases hs : splitFirst f as with
      | none => rw [hs] at h; simp at h
      | some t =>
        obtain ⟨l', y, r'⟩ := t
        rw [hs] at h
        obtain ⟨rfl, rfl, rfl⟩ : a :: l' = l ∧ y = x ∧ r' = r := by simpa using h
        obtain ⟨h1, h2, h3⟩ := ih hs
        refine ⟨by rw [h1]; rfl, h2, ?_⟩
        intro z hz
        rcases List.mem_cons.1 hz with rfl | hz
        · exact Bool.eq_false_iff.mpr ha
        · exact h3 z hz

theorem deleteFiles_fst (u : String → Bool) :
    ∀ (ps ups : List String), (∀ p ∈ ps, p ∈ ups → u p = false) →
      (deleteFiles u ps ups).1 = true := by
  intro ps
  induction ps with
  | nil => intro ups _; rfl
  | cons p ps ih =>
    intro ups h
    rw [deleteFiles]
    by_cases hm : ups.contains p = true
    · rw [if_pos hm, h p (List.mem_cons_self p ps) (List.elem_iff.mp hm)]
      simp only [Bool.false_eq_true, if_false]
      exact ih _ (fun q hq hq' =>
        h q (List.mem_cons_of_mem _ hq) (List.mem_filter.mp hq').1)
    · rw [if_neg hm]
      exact ih _ (fun q hq hq' => h q (List.mem_cons_of_mem _ hq) hq')

theorem deleteFiles_true {u : String → Bool} :
    ∀ {ps ups ups' : List String}, deleteFiles u ps ups = (true, ups') →
      ups' = ups.filter (fun q => !(ps.contains q)) := by
  intro ps
  induction ps with
  | nil =>
    intro ups ups' h
    rw [deleteFiles] at h
    cases h
    simp
  | cons p ps ih =>
    intro ups ups' h
    rw [deleteFiles] at h
    by_cases hm : ups.contains p = true
    · rw [if_pos hm] at h
      by_cases hu : u p = true
      · rw [if_pos hu] at h; cases h
      · rw [if_neg hu] at h
        rw [ih h, List.filter_filter]
        refine List.filter_congr ?_
        intro q hq
        by_cases hqp : q = p
        · subst hqp; simp
        · simp [List.contains_cons, hqp, bne, Ne.symm hqp]
    · rw [if_neg hm] at h
      rw [ih h]
      refine List.filter_congr ?_
      intro q hq
      have hqp : q ≠ p := fun e => hm (List.elem_iff.mpr (e ▸ hq))
      simp only [List.contains_cons, Bool.not_or, bne]
      simp [Ne.symm hqp]
      exact fun _ => hqp

/-! ## Shared example data for witnesses -/

/-- An empty server state (no collections, no uploads, fresh install). -/
def st0 : ServerState :=
  { projects := [], projectsDisk := [], carouselImages := [], carouselDisk := [],
    videos := [], videosDisk := [], uploads := [] }

/-- An example project whose single image is the upload `a.png`. -/
def exProject : Project :=
  { id := "p1", title := some "t", description := some "d",
    imageUrls := [mkUrl "a.png"] }

/-- A state holding `exProject`, its backing file in sync, and the
referenced upload present on disk. -/
def exState : ServerState :=
  { projects := [exProject], projectsDisk := [exProject],
    carouselImages := [], carouselDisk := [], videos := [], videosDisk := [],
    uploads := [localOf "a.png"] }

/-! ## C3: validation failures mutate nothing -/

/-- **C3**: a Create call that fails validation — zero files for a
file-owning variant (projects, carousel), or a Video with missing
`url`/`title` or a `url` rejected by the URL parser — answers 400 and
returns the state bit-for-bit unchanged: memory and disk of every
collection untouched, no record appended. -/
theorem create_validation_failure_unchanged :
    (∀ (newId : String) (title description : Option String) (s : ServerState),
      postProject newId title description [] s =
        (.badRequest "At least one image is required.", s)) ∧
    (∀ (newId : String) (s : ServerState),
      postCarousel newId none s = (.badRequest "No image uploaded", s)) ∧
    (∀ (validURL : String → Bool) (newId : String) (url title : Option String)
      (s : ServerState), (truthy url && truthy title) = false →
      postVideo validURL newId url title s =
        (.badRequest "Both url and title are required.", s)) ∧
    (∀ (validURL : String → Bool) (newId : String) (url title : Option String)
      (s : ServerState), truthy url = true → truthy title = true →
      validURL (url.getD "") = false →
      postVideo validURL newId url title s =
        (.badRequest "Invalid URL format.", s)) := by
  refine ⟨?_, ?_, ?_, ?_⟩
  · intro newId t d s
    simp [postProject]
  · intro newId s
    rfl
  · intro v newId u t s h
    simp [postVideo, h]
  · intro v newId u t s hu ht hv
    simp [postVideo, hu, ht, hv]

/-- Witness for C3: the spec's own scenario — a Video with
`url: "not-a-url"` (rejected by the parser oracle), plus a zero-file
project Create, both leave the empty state unchanged. -/
theorem create_validation_failure_unchanged_witness :
    postVideo (fun _ => false) "v1" (some "not-a-url") (some "x") st0 =
      (.badRequest "Invalid URL format.", st0) ∧
    postProject "p9" (some "T") none [] st0 =
      (.badRequest "At least one image is required.", st0) :=
  ⟨create_validation_failure_unchanged.2.2.2 (fun _ => false) "v1"
      (some "not-a-url") (some "x") st0 rfl rfl rfl,
    create_validation_failure_unchanged.1 "p9" (some "T") none st0⟩

/-! ## C4: partial update -/

/-- **C4**: updating an existing project with only a truthy (non-empty)
`title` — no truthy description, no files — rewrites exactly that record's
title; its description, imageUrls and id, the other records (`l` and `r`),
and the uploads directory are untouched (the collection is re-persisted). -/
theorem update_title_only_partial (u : String → Bool) (pid : String)
    (title description : Option String) (s : ServerState)
    (l : List Project) (p : Project) (r : List Project)
    (hfind : splitFirst (fun q => q.id == pid) s.projects = some (l, p, r))
    (ht : truthy title = true) (hd : truthy description = false) :
    putProject u pid title description [] s =
      (.ok { p with title := title },
        { s with projects := l ++ { p with title := title } :: r,
                 projectsDisk := l ++ { p with title := title } :: r }) := by
  simp [putProject, hfind, ht, hd]

/-- `exProject` after its title is renamed to `"T2"`. -/
def exProjectT2 : Project :=
  Project.mk "p1" (some "T2") (some "d") [mkUrl "a.png"]

/-- Witness for C4: renaming `exProject` to `"T2"` changes only the title
and keeps the description, image list and id. -/
theorem update_title_only_partial_witness :
    putProject (fun _ => false) "p1" (some "T2") none [] exState =
      (.ok exProjectT2,
       { exState with projects := [exProjectT2], projectsDisk := [exProjectT2] }) :=
  update_title_only_partial (fun _ => false) "p1" (some "T2") none exState
    [] exProject [] (by decide) rfl rfl

/-! ## C10: no validation of title/description on project Create -/

/-- **C10**: project Create never validates `title`/`description`: with at
least one file and either field omitted (`none`, i.e. `undefined` in JS),
it answers 201 and appends + persists a record carrying exactly those
absent fields. -/
theorem project_create_no_field_validation (newId : String)
    (title description : Option String) (files : List String) (s : ServerState)
    (hf : files ≠ []) (_homit : title = none ∨ description = none) :
    postProject newId title description files s =
      (.created (Project.mk newId title description (files.map mkUrl)),
       { s with uploads := s.uploads ++ files.map localOf,
                projects := s.projects ++
                  [Project.mk newId title description (files.map mkUrl)],
                projectsDisk := s.projects ++
                  [Project.mk newId title description (files.map mkUrl)] }) := by
  have hlen : ¬ files.length = 0 := by simpa using hf
  simp [postProject, hlen]

/-- Witness for C10: creating a project from one file with both fields
omitted succeeds and stores `title = none`, `description = none`. -/
theorem project_create_no_field_validation_witness :
    postProject "p7" none none ["b.png"] st0 =
      (.created (Project.mk "p7" none none [mkUrl "b.png"]),
       { st0 with uploads := [localOf "b.png"],
                  projects := [Project.mk "p7" none none [mkUrl "b.png"]],
                  projectsDisk := [Project.mk "p7" none none [mkUrl "b.png"]] }) :=
  project_create_no_field_validation "p7" none none ["b.png"] st0
    (by decide) (Or.inl rfl)

/-! ## C7: create/list round trip -/

/-- **C7**: on each of the three collections, whenever Create succeeds the
201 body is exactly the record appended at the end of the collection, and
List afterwards returns that collection as-is — same record, insertion
order, no state change. -/
theorem create_list_round_trip :
    (∀ (newId : String) (title description : Option String) (files : List String)
       (s : ServerState) (rec : Project) (s' : ServerState),
       postProject newId title description files s = (.created rec, s') →
       s'.projects = s.projects ++ [rec] ∧
       (getProjects s').1 = s.projects ++ [rec] ∧ (getProjects s').2 = s') ∧
    (∀ (newId : String) (file : Option String) (s : ServerState)
       (rec : CarouselImage) (s' : ServerState),
       postCarousel newId file s = (.created rec, s') →
       s'.carouselImages = s.carouselImages ++ [rec] ∧
       (getCarouselImages s').1 = s.carouselImages ++ [rec] ∧
       (getCarouselImages s').2 = s') ∧
    (∀ (validURL : String → Bool) (newId : String) (url title : Option String)
       (s : ServerState) (rec : Video) (s' : ServerState),
       postVideo validURL newId url title s = (.created rec, s') →
       s'.videos = s.videos ++ [rec] ∧
       (getVideos s').1 = s.videos ++ [rec] ∧ (getVideos s').2 = s') := by
  refine ⟨?_, ?_, ?_⟩
  · intro newId t d files s rec s' h
    by_cases hl : files.length = 0
    · simp [postProject, hl] at h
    · simp only [postProject, hl, if_false] at h
      obtain ⟨h1, rfl⟩ := Prod.mk.injEq .. ▸ h
      obtain rfl : rec = _ := (ApiResult.created.injEq .. ▸ h1).symm
      exact ⟨rfl, rfl, rfl⟩
  · intro newId file s rec s' h
    cases file with
    | none => simp [postCarousel] at h
    | some f =>
      simp only [postCarousel] at h
      obtain ⟨h1, rfl⟩ := Prod.mk.injEq .. ▸ h
      obtain rfl : rec = _ := (ApiResult.created.injEq .. ▸ h1).symm
      exact ⟨rfl, rfl, rfl⟩
  · intro v newId url title s rec s' h
    by_cases h1 : (truthy url && truthy title) = true
    · by_cases h2 : v (url.getD "") = true
      · simp only [postVideo, h1, h2, if_true] at h
        obtain ⟨h3, rfl⟩ := Prod.mk.injEq .. ▸ h
        obtain rfl : rec = _ := (ApiResult.created.injEq .. ▸ h3).symm
        exact ⟨rfl, rfl, rfl⟩
      · simp [postVideo, h1, h2] at h
    · simp [postVideo, h1] at h

/-- Witness for C7: creating a video in the empty store appends it and List
returns it. -/
theorem create_list_round_trip_witness :
    (postVideo (fun _ => true) "v1" (some "http://e.com") (some "T") st0).2.videos =
      st0.videos ++ [Video.mk "v1" "http://e.com" "T"] :=
  (create_list_round_trip.2.2 (fun _ => true) "v1" (some "http://e.com") (some "T")
    st0 (Video.mk "v1" "http://e.com" "T") _ rfl).1

/-! ## C8: write-through persistence -/

/-- **C8**: whenever a mutating operation (Create, Update, Delete on any of
the three collections) completes successfully, the backing JSON file of the
touched collection holds exactly the serialization of the in-memory
collection: the whole collection was rewritten synchronously by the
`save…()` call before the handler answered (a 4xx path mutates nothing, and
an operation aborted by an unlink throw is not a completed mutation). -/
theorem write_through_on_success :
    (∀ (newId : String) (title description : Option String) (files : List String)
       (s : ServerState) (res : ApiResult Project) (s' : ServerState),
       postProject newId title description files s = (res, s') →
       res.success = true → s'.projectsDisk = s'.projects) ∧
    (∀ (u : String → Bool) (pid : String) (title description : Option String)
       (files : List String) (s : ServerState) (res : ApiResult Project)
       (s' : ServerState),
       putProject u pid title description files s = (res, s') →
       res.success = true → s'.projectsDisk = s'.projects) ∧
    (∀ (u : String → Bool) (pid : String) (s : ServerState) (res : ApiResult String)
       (s' : ServerState), deleteProject u pid s = (res, s') →
       res.success = true → s'.projectsDisk = s'.projects) ∧
    (∀ (newId : String) (file : Option String) (s : ServerState)
       (res : ApiResult CarouselImage) (s' : ServerState),
       postCarousel newId file s = (res, s') →
       res.success = true → s'.carouselDisk = s'.carouselImages) ∧
    (∀ (u : String → Bool) (pid : String) (s : ServerState) (res : ApiResult String)
       (s' : ServerState), deleteCarousel u pid s = (res, s') →
       res.success = true → s'.carouselDisk = s'.carouselImages) ∧
    (∀ (validURL : String → Bool) (newId : String) (url title : Option String)
       (s : ServerState) (res : ApiResult Video) (s' : ServerState),
       postVideo validURL newId url title s = (res, s') →
       res.success = true → s'.videosDisk = s'.videos) ∧
    (∀ (pid : String) (s : ServerState) (res : ApiResult String) (s' : ServerState),
       deleteVideo pid s = (res, s') →
       res.success = true → s'.videosDisk = s'.videos) := by
  refine ⟨?_, ?_, ?_, ?_, ?_, ?_, ?_⟩
  · intro newId t d files s res s' h hs
    by_cases hl : files.length = 0
    · simp only [postProject, hl, if_true] at h
      obtain ⟨rfl, rfl⟩ := Prod.mk.injEq .. ▸ h
      simp [ApiResult.success] at hs
    · simp only [postProject, hl, if_false] at h
      obtain ⟨rfl, rfl⟩ := Prod.mk.injEq .. ▸ h
      rfl
  · intro u pid t d files s res s' h hs
    rcases hsp : splitFirst (fun p => p.id == pid) s.projects with _ | ⟨l, p, r⟩
    · simp only [putProject, hsp] at h
      obtain ⟨rfl, rfl⟩ := Prod.mk.injEq .. ▸ h
      simp [ApiResult.success] at hs
    · by_cases hf : files.isEmpty
      · simp only [putProject, hsp, hf, if_true] at h
        obtain ⟨rfl, rfl⟩ := Prod.mk.injEq .. ▸ h
        rfl
      · rcases hdf : deleteFiles u (p.imageUrls.map urlToLocal)
            (s.uploads ++ files.map localOf) with ⟨b, ups1⟩
        cases b with
        | false =>
          simp only [putProject, hsp, hf, if_false, hdf] at h
          obtain ⟨rfl, rfl⟩ := Prod.mk.injEq .. ▸ h
          simp [ApiResult.success] at hs
        | true =>
          simp only [putProject, hsp, hf, if_false, hdf] at h
          obtain ⟨rfl, rfl⟩ := Prod.mk.injEq .. ▸ h
          rfl
  · intro u pid s res s' h hs
    rcases hsp : splitFirst (fun p => p.id == pid) s.projects with _ | ⟨l, p, r⟩
    · simp only [deleteProject, hsp] at h
      obtain ⟨rfl, rfl⟩ := Prod.mk.injEq .. ▸ h
      simp [ApiResult.success] at hs
    · rcases hdf : deleteFiles u (p.imageUrls.map urlToLocal) s.uploads with ⟨b, ups1⟩
      cases b with
      | false =>
        simp only [deleteProject, hsp, hdf] at h
        obtain ⟨rfl, rfl⟩ := Prod.mk.injEq .. ▸ h
        simp [ApiResult.success] at hs
      | true =>
        simp only [deleteProject, hsp, hdf] at h
        obtain ⟨rfl, rfl⟩ := Prod.mk.injEq .. ▸ h
        rfl
  · intro newId file s res s' h hs
    cases file with
    | none =>
      simp only [postCarousel] at h
      obtain ⟨rfl, rfl⟩ := Prod.mk.injEq .. ▸ h
      simp [ApiResult.success] at hs
    | some f =>
      simp only [postCarousel] at h
      obtain ⟨rfl, rfl⟩ := Prod.mk.injEq .. ▸ h
      rfl
  · intro u pid s res s' h hs
    rcases hsp : splitFirst (fun c => c._id == pid) s.carouselImages with _ | ⟨l, c, r⟩
    · simp only [deleteCarousel, hsp] at h
      obtain ⟨rfl, rfl⟩ := Prod.mk.injEq .. ▸ h
      simp [ApiResult.success] at hs
    · rcases hdf : deleteFiles u [urlToLocal c.url] s.uploads with ⟨b, ups1⟩
      cases b with
      | false =>
        simp only [deleteCarousel, hsp, hdf] at h
        obtain ⟨rfl, rfl⟩ := Prod.mk.injEq .. ▸ h
        simp [ApiResult.success] at hs
      | true =>
        simp only [deleteCarousel, hsp, hdf] at h
        obtain ⟨rfl, rfl⟩ := Prod.mk.injEq .. ▸ h
        rfl
  · intro v newId url title s res s' h hs
    by_cases h1 : (truthy url && truthy title) = true
    · by_cases h2 : v (url.getD "") = true
      · simp only [postVideo, h1, h2, if_true] at h
        obtain ⟨rfl, rfl⟩ := Prod.mk.injEq .. ▸ h
        rfl
      · simp only [postVideo, h1, h2, if_true, if_false] at h
        obtain ⟨rfl, rfl⟩ := Prod.mk.injEq .. ▸ h
        simp [ApiResult.success] at hs
    · simp only [postVideo, h1] at h
      obtain ⟨rfl, rfl⟩ := Prod.mk.injEq .. ▸ h
      simp [ApiResult.success] at hs
  · intro pid s res s' h hs
    rcases hsp : splitFirst (fun v => v.id == pid) s.videos with _ | ⟨l, v, r⟩
    · simp only [deleteVideo, hsp] at h
      obtain ⟨rfl, rfl⟩ := Prod.mk.injEq .. ▸ h
      simp [ApiResult.success] at hs
    · simp only [deleteVideo, hsp] at h
      obtain ⟨rfl, rfl⟩ := Prod.mk.injEq .. ▸ h
      rfl

/-- Witness for C8: after creating a carousel image in the empty store the
carousel backing file equals the in-memory collection. -/
theorem write_through_on_success_witness :
    ((postCarousel "c1" (some "c.png") st0).2).carouselDisk =
      ((postCarousel "c1" (some "c.png") st0).2).carouselImages :=
  write_through_on_success.2.2.2.1 "c1" (some "c.png") st0
    (postCarousel "c1" (some "c.png") st0).1 (postCarousel "c1" (some "c.png") st0).2
    rfl rfl

/-! ## C6: delete not-found / idempotent delete effect -/

/-- If a collection's keys are distinct, removing the matched element
leaves no element with the matched key. -/
theorem nodup_key_split {α : Type} (k : α → String) {xs l r : List α} {x : α}
    (hx : xs = l ++ x :: r) (hnd : (xs.map k).Nodup) :
    ∀ y ∈ l ++ r, k y ≠ k x := by
  subst hx
  rw [List.map_append, List.map_cons] at hnd
  intro y hy he
  rcases List.mem_append.1 hy with hy | hy
  · exact (List.nodup_append.1 hnd).2.2 (List.mem_map_of_mem k hy)
      (by rw [he]; exact List.mem_cons_self _ _)
  · exact (List.nodup_cons.1 (List.nodup_append.1 hnd).2.1).1
      (by rw [← he]; exact List.mem_map_of_mem k hy)

/-- **C6**: on each collection, Delete with an unmatched id answers 404 and
returns the state unchanged (memory and disk); and when Delete succeeds on
a collection with distinct ids, no remaining record carries the id and a
second Delete of the same id answers 404 on an unchanged state. -/
theorem delete_not_found_and_idempotent :
    (∀ (u : String → Bool) (pid : String) (s : ServerState),
       (∀ p ∈ s.projects, p.id ≠ pid) →
       deleteProject u pid s = (.notFound "Project not found", s)) ∧
    (∀ (u : String → Bool) (pid : String) (s : ServerState),
       (∀ c ∈ s.carouselImages, c._id ≠ pid) →
       deleteCarousel u pid s = (.notFound "Image not found", s)) ∧
    (∀ (pid : String) (s : ServerState), (∀ v ∈ s.videos, v.id ≠ pid) →
       deleteVideo pid s = (.notFound "Video not found", s)) ∧
    (∀ (u : String → Bool) (pid : String) (s : ServerState) (msg : String)
       (s' : ServerState), (s.projects.map Project.id).Nodup →
       deleteProject u pid s = (.ok msg, s') →
       (∀ p ∈ s'.projects, p.id ≠ pid) ∧
       ∀ u' : String → Bool,
         deleteProject u' pid s' = (.notFound "Project not found", s')) ∧
    (∀ (u : String → Bool) (pid : String) (s : ServerState) (msg : String)
       (s' : ServerState), (s.carouselImages.map CarouselImage._id).Nodup →
       deleteCarousel u pid s = (.ok msg, s') →
       (∀ c ∈ s'.carouselImages, c._id ≠ pid) ∧
       ∀ u' : String → Bool,
         deleteCarousel u' pid s' = (.notFound "Image not found", s')) ∧
    (∀ (pid : String) (s : ServerState) (msg : String) (s' : ServerState),
       (s.videos.map Video.id).Nodup →
       deleteVideo pid s = (.ok msg, s') →
       (∀ v ∈ s'.videos, v.id ≠ pid) ∧
       deleteVideo pid s' = (.notFound "Video not found", s')) := by
  refine ⟨?_, ?_, ?_, ?_, ?_, ?_⟩
  · intro u pid s h
    have hn : splitFirst (fun p : Project => p.id == pid) s.projects = none :=
      splitFirst_eq_none_of _ _ (fun p hp => beq_eq_false_iff_ne.mpr (h p hp))
    simp [deleteProject, hn]
  · intro u pid s h
    have hn : splitFirst (fun c : CarouselImage => c._id == pid) s.carouselImages =
        none :=
      splitFirst_eq_none_of _ _ (fun c hc => beq_eq_false_iff_ne.mpr (h c hc))
    simp [deleteCarousel, hn]
  · intro pid s h
    have hn : splitFirst (fun v : Video => v.id == pid) s.videos = none :=
      splitFirst_eq_none_of _ _ (fun v hv => beq_eq_false_iff_ne.mpr (h v hv))
    simp [deleteVideo, hn]
  · intro u pid s msg s' hnd h
    rcases hsp : splitFirst (fun p => p.id == pid) s.projects with _ | ⟨l, p, r⟩
    · simp [deleteProject, hsp] at h
    · obtain ⟨hx, hfp, -⟩ := splitFirst_eq_some hsp
      rcases hdf : deleteFiles u (p.imageUrls.map urlToLocal) s.uploads with ⟨b, ups1⟩
      cases b with
      | false => simp [deleteProject, hsp, hdf] at h
      | true =>
        simp only [deleteProject, hsp, hdf] at h
        obtain ⟨-, rfl⟩ := Prod.mk.injEq .. ▸ h
        have hid : p.id = pid := beq_iff_eq.mp hfp
        have hnone : ∀ q ∈ l ++ r, q.id ≠ pid := by
          intro q hq
          rw [← hid]
          exact nodup_key_split Project.id hx hnd q hq
        refine ⟨hnone, ?_⟩
        intro u'
        have hn : splitFirst (fun q : Project => q.id == pid) (l ++ r) = none :=
          splitFirst_eq_none_of _ _ (fun q hq => beq_eq_false_iff_ne.mpr (hnone q hq))
        simp [deleteProject, hn]
  · intro u pid s msg s' hnd h
    rcases hsp : splitFirst (fun c => c._id == pid) s.carouselImages with _ | ⟨l, c, r⟩
    · simp [deleteCarousel, hsp] at h
    · obtain ⟨hx, hfp, -⟩ := splitFirst_eq_some hsp
      rcases hdf : deleteFiles u [urlToLocal c.url] s.uploads with ⟨b, ups1⟩
      cases b with
      | false => simp [deleteCarousel, hsp, hdf] at h
      | true =>
        simp only [deleteCarousel, hsp, hdf] at h
        obtain ⟨-, rfl⟩ := Prod.mk.injEq .. ▸ h
        have hid : c._id = pid := beq_iff_eq.mp hfp
        have hnone : ∀ q ∈ l ++ r, q._id ≠ pid := by
          intro q hq
          rw [← hid]
          exact nodup_key_split CarouselImage._id hx hnd q hq
        refine ⟨hnone, ?_⟩
        intro u'
        have hn : splitFirst (fun q : CarouselImage => q._id == pid) (l ++ r) = none :=
          splitFirst_eq_none_of _ _ (fun q hq => beq_eq_false_iff_ne.mpr (hnone q hq))
        simp [deleteCarousel, hn]
  · intro pid s msg s' hnd h
    rcases hsp : splitFirst (fun v => v.id == pid) s.videos with _ | ⟨l, v, r⟩
    · simp [deleteVideo, hsp] at h
    · obtain ⟨hx, hfp, -⟩ := splitFirst_eq_some hsp
      simp only [deleteVideo, hsp] at h
      obtain ⟨-, rfl⟩ := Prod.mk.injEq .. ▸ h
      have hid : v.id = pid := beq_iff_eq.mp hfp
      have hnone : ∀ q ∈ l ++ r, q.id ≠ pid := by
        intro q hq
        rw [← hid]
        exact nodup_key_split Video.id hx hnd q hq
      refine ⟨hnone, ?_⟩
      have hn : splitFirst (fun q : Video => q.id == pid) (l ++ r) = none :=
        splitFirst_eq_none_of _ _ (fun q hq => beq_eq_false_iff_ne.mpr (hnone q hq))
      simp [deleteVideo, hn]

/-- Witness for C6: the spec's scenario — deleting a carousel image with an
id absent from the (empty) collection fails not-found and changes nothing;
and after a successful project delete in `exState`, the id is gone and a
repeat delete fails not-found. -/
theorem delete_not_found_and_idempotent_witness :
    deleteCarousel (fun _ => false) "nope" st0 =
      (.notFound "Image not found", st0) ∧
    deleteProject (fun _ => false) "p1"
        ((deleteProject (fun _ => false) "p1" exState).2) =
      (.notFound "Project not found",
        (deleteProject (fun _ => false) "p1" exState).2) :=
  ⟨(delete_not_found_and_idempotent.2.1 (fun _ => false) "nope" st0 (by decide)),
   ((delete_not_found_and_idempotent.2.2.2.1 (fun _ => false) "p1" exState
      "Project deleted successfully" ((deleteProject (fun _ => false) "p1" exState).2)
      (by decide) (by decide)).2 (fun _ => false))⟩

/-! ## C5: update with new files -/

/-- **C5**: updating an existing project with new files deletes every
*present* file referenced by the record's current image references (an
already-absent file is skipped without error — `hdel` constrains the unlink
oracle only on present paths), replaces the record's references by ones
built from the new files, and persists the collection
(`projectsDisk = projects`); the definition of `putProject` performs these
three steps in exactly that order. -/
theorem update_with_files_semantics (u : String → Bool) (pid : String)
    (title description : Option String) (files : List String) (s : ServerState)
    (l : List Project) (p : Project) (r : List Project)
    (hfind : splitFirst (fun q => q.id == pid) s.projects = some (l, p, r))
    (hfiles : files ≠ [])
    (hdel : ∀ x ∈ p.imageUrls.map urlToLocal,
      x ∈ s.uploads ++ files.map localOf → u x = false) :
    ∃ p2 : Project, p2.id = p.id ∧ p2.imageUrls = files.map mkUrl ∧
      putProject u pid title description files s =
        (.ok p2,
         { s with projects := l ++ p2 :: r, projectsDisk := l ++ p2 :: r,
                  uploads := (s.uploads ++ files.map localOf).filter
                    (fun q => !((p.imageUrls.map urlToLocal).contains q)) }) := by
  have hfst := deleteFiles_fst u (p.imageUrls.map urlToLocal)
    (s.uploads ++ files.map localOf) hdel
  rcases hdf : deleteFiles u (p.imageUrls.map urlToLocal)
      (s.uploads ++ files.map localOf) with ⟨b, ups1⟩
  rw [hdf] at hfst
  cases hfst
  have hups := deleteFiles_true hdf
  have hne : files.isEmpty = false := by
    cases files with
    | nil => exact absurd rfl hfiles
    | cons a as => rfl
  refine ⟨{ p with
      title := if truthy title then title else p.title,
      description := if truthy description then description else p.description,
      imageUrls := files.map mkUrl }, rfl, rfl, ?_⟩
  simp only [putProject, hfind, hne, Bool.false_eq_true, if_false, hdf]
  rw [hups]

/-- Witness for C5: replacing `exProject`'s image `a.png` by `n.png`
removes `uploads/a.png`, stores the new reference and persists. -/
theorem update_with_files_semantics_witness :
    ∃ p2 : Project, p2.id = exProject.id ∧ p2.imageUrls = [mkUrl "n.png"] ∧
      putProject (fun _ => false) "p1" none none ["n.png"] exState =
        (.ok p2,
         { exState with projects := [] ++ p2 :: [], projectsDisk := [] ++ p2 :: [],
                        uploads := (exState.uploads ++ ["n.png"].map localOf).filter
                          (fun q =>
                            !((exProject.imageUrls.map urlToLocal).contains q)) }) :=
  update_with_files_semantics (fun _ => false) "p1" none none ["n.png"] exState
    [] exProject [] (by decide) (by decide) (fun x _ _ => rfl)

/-! ## C1: unlink failures other than absence are NOT swallowed -/

/-- The unlink oracle that throws on `uploads/a.png` although the file is
present (e.g. `EPERM`/`EACCES`/`EBUSY`) — a failure for a reason other
than absence. -/
def exUnlinkFails : String → Bool := fun p => p == localOf "a.png"

/-- **C1 counterexample**: deleting `exProject` while unlinking its present
file `uploads/a.png` throws: the handler answers 500 `Internal Server
Error` (the failure IS surfaced), the record is NOT removed and nothing is
persisted — the state is returned bit-for-bit unchanged.  This falsifies
the claim that a non-absence file-deletion failure leaves the metadata
operation successful and unsurfaced. -/
theorem unlink_failure_surfaced_cex :
    deleteProject exUnlinkFails "p1" exState = (.internalError, exState) ∧
    (ApiResult.internalError : ApiResult String).success = false ∧
    exState.projects = [exProject] ∧ exState.projectsDisk = [exProject] ∧
    localOf "a.png" ∈ exState.uploads ∧ exUnlinkFails (localOf "a.png") = true := by
  decide

/-- **C1 amended**: during Update/Delete of a project, only *absence* of an
old referenced file is swallowed (the operation still succeeds and
persists); an unlink failure on a *present* file aborts the handler with a
generic 500: the collection change is not persisted to disk and the
failure is surfaced (on Update the in-memory title/description mutations
performed before the loop survive, unpersisted). -/
theorem unlink_failure_aborts_amended :
    (∀ (u : String → Bool) (pid : String) (s : ServerState) (l : List Project)
       (p : Project) (r : List Project),
       splitFirst (fun q => q.id == pid) s.projects = some (l, p, r) →
       (∀ x ∈ p.imageUrls.map urlToLocal, x ∈ s.uploads → u x = false) →
       deleteProject u pid s =
         (.ok "Project deleted successfully",
          { s with projects := l ++ r, projectsDisk := l ++ r,
                   uploads := s.uploads.filter
                     (fun q => !((p.imageUrls.map urlToLocal).contains q)) })) ∧
    (∀ (u : String → Bool) (pid : String) (s : ServerState) (l : List Project)
       (p : Project) (r : List Project) (ups1 : List String),
       splitFirst (fun q => q.id == pid) s.projects = some (l, p, r) →
       deleteFiles u (p.imageUrls.map urlToLocal) s.uploads = (false, ups1) →
       deleteProject u pid s = (.internalError, { s with uploads := ups1 })) ∧
    (∀ (u : String → Bool) (pid : String) (title description : Option String)
       (files : List String) (s : ServerState) (l : List Project) (p : Project)
       (r : List Project) (ups1 : List String),
       splitFirst (fun q => q.id == pid) s.projects = some (l, p, r) →
       files ≠ [] →
       deleteFiles u (p.imageUrls.map urlToLocal)
         (s.uploads ++ files.map localOf) = (false, ups1) →
       ∃ p1 : Project, p1.id = p.id ∧ p1.imageUrls = p.imageUrls ∧
         putProject u pid title description files s =
           (.internalError,
            { s with uploads := ups1, projects := l ++ p1 :: r })) := by
  refine ⟨?_, ?_, ?_⟩
  · intro u pid s l p r hfind hdel
    have hfst := deleteFiles_fst u (p.imageUrls.map urlToLocal) s.uploads hdel
    rcases hdf : deleteFiles u (p.imageUrls.map urlToLocal) s.uploads with ⟨b, ups1⟩
    rw [hdf] at hfst
    cases hfst
    have hups := deleteFiles_true hdf
    simp only [deleteProject, hfind, hdf]
    rw [hups]
  · intro u pid s l p r ups1 hfind hdf
    simp [deleteProject, hfind, hdf]
  · intro u pid t d files s l p r ups1 hfind hfiles hdf
    have hne : files.isEmpty = false := by
      cases files with
      | nil => exact absurd rfl hfiles
      | cons a as => rfl
    refine ⟨{ p with
        title := if truthy t then t else p.title,
        description := if truthy d then d else p.description }, rfl, rfl, ?_⟩
    simp only [putProject, hfind, hne, Bool.false_eq_true, if_false, hdf]

/-- Witness for the amended C1: with `exProject`'s file absent from disk
the delete still succeeds and persists; with the file present but
undeletable the delete answers 500 and persists nothing. -/
theorem unlink_failure_aborts_amended_witness :
    deleteProject exUnlinkFails "p1" { exState with uploads := [] } =
      (.ok "Project deleted successfully",
       { exState with uploads := [], projects := [], projectsDisk := [] }) ∧
    deleteProject exUnlinkFails "p1" exState =
      (.internalError, { exState with uploads := exState.uploads }) :=
  ⟨unlink_failure_aborts_amended.1 exUnlinkFails "p1"
      { exState with uploads := [] } [] exProject [] (by decide)
      (fun x _ hx => absurd hx (List.not_mem_nil x)),
   unlink_failure_aborts_amended.2.1 exUnlinkFails "p1" exState [] exProject []
      exState.uploads (by decide) (by decide)⟩

/-! ## C2: file/record consistency invariant -/

/-- The local paths referenced by a project record. -/
def refsOfProject (p : Project) : List String := p.imageUrls.map urlToLocal

/-- The local path referenced by a carousel record. -/
def carouselRef (c : CarouselImage) : String := urlToLocal c.url

/-- Every local path referenced by some file-owning record of the two
file-owning collections (projects first, then carousel images). -/
def partsRefs (P : List Project) (C : List CarouselImage) : List String :=
  P.flatMap refsOfProject ++ C.map carouselRef

/-- Every local path referenced by some file-owning record of the state. -/
def allRefs (s : ServerState) : List String :=
  partsRefs s.projects s.carouselImages

/-- The consistency invariant on the file-owning parts: the upload
directory has no duplicate paths, distinct references never collide, every
stored reference resolves to exactly one present file, and every present
file is referenced by some record (no orphans). -/
def wfParts (P : List Project) (C : List CarouselImage) (U : List String) : Prop :=
  U.Nodup ∧ (partsRefs P C).Nodup ∧
  (∀ x ∈ partsRefs P C, x ∈ U) ∧ (∀ x ∈ U, x ∈ partsRefs P C)

/-- The claimed consistency invariant of a server state. -/
def wf (s : ServerState) : Prop :=
  wfParts s.projects s.carouselImages s.uploads

/-- Freshness of multer's generated file names handed to a handler: the
saved names are pairwise distinct and none collides with a file already in
the upload directory (the collaborator contract of uuid naming). -/
def freshFiles (files : List String) (s : ServerState) : Prop :=
  (files.map localOf).Nodup ∧ ∀ f ∈ files.map localOf, f ∉ s.uploads

instance (P : List Project) (C : List CarouselImage) (U : List String) :
    Decidable (wfParts P C U) := by
  unfold wfParts
  infer_instance

instance (s : ServerState) : Decidable (wf s) := by
  unfold wf
  infer_instance

instance (files : List String) (s : ServerState) : Decidable (freshFiles files s) := by
  unfold freshFiles
  infer_instance

/-- **C2 counterexample**: starting from the consistent empty store, a PUT
carrying one uploaded file but aimed at a nonexistent id completes (404):
multer has already written `uploads/f.png`, the handler references it in no
record and never deletes it — an orphaned file survives the completed
operation, falsifying the no-orphans claim. -/
theorem orphan_after_put_not_found_cex :
    wf st0 ∧
    (putProject (fun _ => false) "ghost" none none ["f.png"] st0).1 =
      .notFound "Project not found" ∧
    localOf "f.png" ∈
      (putProject (fun _ => false) "ghost" none none ["f.png"] st0).2.uploads ∧
    allRefs (putProject (fun _ => false) "ghost" none none ["f.png"] st0).2 = [] := by
  decide

/-- Appending fresh entries keeps a list duplicate-free. -/
theorem nodup_append_fresh {xs n : List String} (hx : xs.Nodup) (hn : n.Nodup)
    (hf : ∀ f ∈ n, f ∉ xs) : (xs ++ n).Nodup := by
  rw [List.nodup_append]
  exact ⟨hx, hn, fun a ha hb => hf a hb ha⟩

/-- References built from freshly uploaded files resolve back to exactly
the files multer wrote. -/
theorem refsOf_new (files : List String) :
    (files.map mkUrl).map urlToLocal = files.map localOf := by
  rw [List.map_map]
  exact List.map_congr_left fun f _ => urlToLocal_mkUrl f

/-- Filtering by non-membership in the empty list keeps everything. -/
theorem filter_not_contains_nil (xs : List String) :
    xs.filter (fun q => !(([] : List String).contains q)) = xs := by
  simp

/-- Master step for the consistency invariant: if the reference multiset
splits as `A ++ D ++ B` (`D` the references of the affected record) and
matches the upload directory `U` exactly, then after deleting `D`'s files
and installing fresh references `n` the correspondence still holds. -/
theorem wf_step {A B D n U : List String}
    (hU : U.Nodup) (hR : (A ++ (D ++ B)).Nodup)
    (hRU : ∀ x ∈ A ++ (D ++ B), x ∈ U)
    (hUR : ∀ x ∈ U, x ∈ A ++ (D ++ B))
    (hn : n.Nodup) (hfresh : ∀ f ∈ n, f ∉ U) :
    ((U ++ n).filter (fun q => !(D.contains q))).Nodup ∧
    (A ++ (n ++ B)).Nodup ∧
    (∀ x ∈ A ++ (n ++ B), x ∈ (U ++ n).filter (fun q => !(D.contains q))) ∧
    (∀ x ∈ (U ++ n).filter (fun q => !(D.contains q)), x ∈ A ++ (n ++ B)) := by
  have hAB : (A ++ B).Nodup := by
    have hsub : (A ++ B).Sublist (A ++ (D ++ B)) :=
      (List.Sublist.refl A).append (List.sublist_append_right D B)
    exact List.Nodup.sublist hsub hR
  have hnAB : ∀ f ∈ n, f ∉ A ++ B := by
    intro f hf hmem
    refine hfresh f hf (hRU f ?_)
    rcases List.mem_append.1 hmem with h1 | h1
    · exact List.mem_append_left _ h1
    · exact List.mem_append_right _ (List.mem_append_right _ h1)
  have hperm : (A ++ (n ++ B)).Perm (n ++ (A ++ B)) := by
    have hp : ((A ++ n) ++ B).Perm ((n ++ A) ++ B) :=
      List.Perm.append_right B List.perm_append_comm
    rw [List.append_assoc, List.append_assoc] at hp
    exact hp
  refine ⟨?_, ?_, ?_, ?_⟩
  · exact List.Nodup.filter _ (nodup_append_fresh hU hn hfresh)
  · refine List.Nodup.perm ?_ hperm.symm
    rw [List.nodup_append]
    exact ⟨hn, hAB, fun a ha hb => hnAB a ha hb⟩
  · intro x hx
    rcases List.mem_append.1 hx with hA | hx2
    · have hxU : x ∈ U := hRU x (List.mem_append_left _ hA)
      have hxD : x ∉ D := by
        intro hd
        exact (List.nodup_append.1 hR).2.2 hA (List.mem_append_left _ hd)
      refine List.mem_filter.2 ⟨List.mem_append_left _ hxU, by simp [hxD]⟩
    · rcases List.mem_append.1 hx2 with hN | hB
      · have hxD : x ∉ D := fun hd => hfresh x hN
          (hRU x (List.mem_append_right _ (List.mem_append_left _ hd)))
        refine List.mem_filter.2 ⟨List.mem_append_right _ hN, by simp [hxD]⟩
      · have hxU := hRU x
          (List.mem_append_right _ (List.mem_append_right _ hB))
        have hxD : x ∉ D := by
          intro hd
          exact (List.nodup_append.1 ((List.nodup_append.1 hR).2.1)).2.2 hd hB
        refine List.mem_filter.2 ⟨List.mem_append_left _ hxU, by simp [hxD]⟩
  · intro x hx
    obtain ⟨hxUn, hxDb⟩ := List.mem_filter.1 hx
    have hxD : x ∉ D := by simpa using hxDb
    rcases List.mem_append.1 hxUn with hU1 | hN
    · rcases List.mem_append.1 (hUR x hU1) with hA | hDB
      · exact List.mem_append_left _ hA
      · rcases List.mem_append.1 hDB with hD1 | hB
        · exact absurd hD1 hxD
        · exact List.mem_append_right _ (List.mem_append_right _ hB)
    · exact List.mem_append_right _ (List.mem_append_left _ hN)

/-- Creating a project from fresh files preserves the invariant. -/
theorem wfParts_create_project {P : List Project} {C : List CarouselImage}
    {U files : List String} (newP : Project) (hw : wfParts P C U)
    (hn : (files.map localOf).Nodup) (hfresh : ∀ f ∈ files.map localOf, f ∉ U)
    (him : newP.imageUrls = files.map mkUrl) :
    wfParts (P ++ [newP]) C (U ++ files.map localOf) := by
  obtain ⟨hU, hR, hRU, hUR⟩ := hw
  have hR' := hR
  have hRU' := hRU
  have hUR' := hUR
  simp only [partsRefs] at hR' hRU' hUR'
  have key := wf_step (A := P.flatMap refsOfProject) (B := C.map carouselRef)
    (D := []) (n := files.map localOf) (U := U) hU (by simpa using hR')
    (by simpa using hRU') (by simpa using hUR') hn hfresh
  obtain ⟨k1, k2, k3, k4⟩ := key
  simp only [filter_not_contains_nil] at k1 k3 k4
  have hpnew : refsOfProject newP = files.map localOf := by
    simp only [refsOfProject, him, refsOf_new]
  refine ⟨k1, ?_, ?_, ?_⟩
  · simp only [partsRefs, List.flatMap_append, List.flatMap_cons, List.flatMap_nil,
      List.append_nil, List.append_assoc, hpnew]
    exact k2
  · intro x hx
    simp only [partsRefs, List.flatMap_append, List.flatMap_cons, List.flatMap_nil,
      List.append_nil, List.append_assoc, hpnew] at hx
    exact k3 x hx
  · intro x hx
    simp only [partsRefs, List.flatMap_append, List.flatMap_cons, List.flatMap_nil,
      List.append_nil, List.append_assoc, hpnew]
    exact k4 x hx

/-- Replacing a project's files by fresh ones (deleting the old files)
preserves the invariant. -/
theorem wfParts_update_project {P : List Project} {C : List CarouselImage}
    {U files : List String} {l r : List Project} {p : Project} (p2 : Project)
    (hx : P = l ++ p :: r) (hw : wfParts P C U)
    (hn : (files.map localOf).Nodup) (hfresh : ∀ f ∈ files.map localOf, f ∉ U)
    (him : p2.imageUrls = files.map mkUrl) :
    wfParts (l ++ p2 :: r) C
      ((U ++ files.map localOf).filter
        (fun q => !((p.imageUrls.map urlToLocal).contains q))) := by
  subst hx
  obtain ⟨hU, hR, hRU, hUR⟩ := hw
  have hR' := hR
  have hRU' := hRU
  have hUR' := hUR
  simp only [partsRefs, List.flatMap_append, List.flatMap_cons,
    List.append_assoc] at hR' hRU' hUR'
  have key := wf_step (A := l.flatMap refsOfProject)
    (B := r.flatMap refsOfProject ++ C.map carouselRef)
    (D := refsOfProject p) (n := files.map localOf) (U := U)
    hU hR' hRU' hUR' hn hfresh
  obtain ⟨k1, k2, k3, k4⟩ := key
  have hp2 : refsOfProject p2 = files.map localOf := by
    simp only [refsOfProject, him, refsOf_new]
  refine ⟨k1, ?_, ?_, ?_⟩
  · simp only [partsRefs, List.flatMap_append, List.flatMap_cons,
      List.append_assoc, hp2]
    exact k2
  · intro x hx2
    simp only [partsRefs, List.flatMap_append, List.flatMap_cons,
      List.append_assoc, hp2] at hx2
    exact k3 x hx2
  · intro x hx2
    simp only [partsRefs, List.flatMap_append, List.flatMap_cons,
      List.append_assoc, hp2]
    exact k4 x hx2

/-- Rewriting only scalar fields of a project (same image references)
preserves the invariant. -/
theorem wfParts_update_project_fields {P : List Project} {C : List CarouselImage}
    {U : List String} {l r : List Project} {p : Project} (p1 : Project)
    (hx : P = l ++ p :: r) (hw : wfParts P C U)
    (him : p1.imageUrls = p.imageUrls) : wfParts (l ++ p1 :: r) C U := by
  subst hx
  obtain ⟨hU, hR, hRU, hUR⟩ := hw
  have hp1 : refsOfProject p1 = refsOfProject p := by
    simp only [refsOfProject, him]
  have he : partsRefs (l ++ p1 :: r) C = partsRefs (l ++ p :: r) C := by
    simp only [partsRefs, List.flatMap_append, List.flatMap_cons, hp1]
  refine ⟨hU, ?_, ?_, ?_⟩ <;> rw [he] <;> assumption

/-- Deleting a project (removing its files) preserves the invariant. -/
theorem wfParts_delete_project {P : List Project} {C : List CarouselImage}
    {U : List String} {l r : List Project} {p : Project}
    (hx : P = l ++ p :: r) (hw : wfParts P C U) :
    wfParts (l ++ r) C
      (U.filter (fun q => !((p.imageUrls.map urlToLocal).contains q))) := by
  subst hx
  obtain ⟨hU, hR, hRU, hUR⟩ := hw
  have hR' := hR
  have hRU' := hRU
  have hUR' := hUR
  simp only [partsRefs, List.flatMap_append, List.flatMap_cons,
    List.append_assoc] at hR' hRU' hUR'
  have key := wf_step (A := l.flatMap refsOfProject)
    (B := r.flatMap refsOfProject ++ C.map carouselRef) (D := refsOfProject p)
    (n := []) (U := U) hU hR' hRU' hUR' List.nodup_nil (fun f hf => absurd hf (List.not_mem_nil f))
  obtain ⟨k1, k2, k3, k4⟩ := key
  simp only [List.append_nil, List.nil_append] at k1 k2 k3 k4
  refine ⟨k1, ?_, ?_, ?_⟩
  · simp only [partsRefs, List.flatMap_append, List.append_assoc]
    exact k2
  · intro x hx2
    simp only [partsRefs, List.flatMap_append, List.append_assoc] at hx2
    exact k3 x hx2
  · intro x hx2
    simp only [partsRefs, List.flatMap_append, List.append_assoc]
    exact k4 x hx2

/-- Creating a carousel image from a fresh file preserves the invariant. -/
theorem wfParts_create_carousel {P : List Project} {C : List CarouselImage}
    {U : List String} {f : String} (newC : CarouselImage) (hw : wfParts P C U)
    (hfresh : localOf f ∉ U) (hurl : newC.url = mkUrl f) :
    wfParts P (C ++ [newC]) (U ++ [localOf f]) := by
  obtain ⟨hU, hR, hRU, hUR⟩ := hw
  have hR' := hR
  have hRU' := hRU
  have hUR' := hUR
  simp only [partsRefs] at hR' hRU' hUR'
  have key := wf_step (A := P.flatMap refsOfProject ++ C.map carouselRef)
    (B := []) (D := []) (n := [localOf f]) (U := U) hU
    (by simpa [List.append_assoc] using hR')
    (by simpa [List.append_assoc] using hRU')
    (by simpa [List.append_assoc] using hUR')
    (List.nodup_cons.2 ⟨List.not_mem_nil _, List.nodup_nil⟩)
    (by intro g hg; rw [List.mem_singleton.1 hg]; exact hfresh)
  obtain ⟨k1, k2, k3, k4⟩ := key
  simp only [filter_not_contains_nil, List.append_nil] at k1 k2 k3 k4
  have hnewc : carouselRef newC = localOf f := by
    simp only [carouselRef, hurl, urlToLocal_mkUrl]
  refine ⟨k1, ?_, ?_, ?_⟩
  · simp only [partsRefs, List.map_append, List.map_cons, List.map_nil, hnewc]
    rw [← List.append_assoc]
    exact List.Nodup.perm k2 (by simp)
  · intro x hx
    simp only [partsRefs, List.map_append, List.map_cons, List.map_nil, hnewc] at hx
    rw [← List.append_assoc] at hx
    refine k3 x ?_
    rcases List.mem_append.1 hx with h1 | h1
    · exact List.mem_append_left _ h1
    · exact List.mem_append_right _ h1
  · intro x hx
    have := k4 x hx
    simp only [partsRefs, List.map_append, List.map_cons, List.map_nil, hnewc]
    rw [← List.append_assoc]
    rcases List.mem_append.1 this with h1 | h1
    · exact List.mem_append_left _ h1
    · exact List.mem_append_right _ h1

/-- Deleting a carousel image (removing its file) preserves the
invariant. -/
theorem wfParts_delete_carousel {P : List Project} {C : List CarouselImage}
    {U : List String} {l r : List CarouselImage} {c : CarouselImage}
    (hx : C = l ++ c :: r) (hw : wfParts P C U) :
    wfParts P (l ++ r)
      (U.filter (fun q => !(([urlToLocal c.url]).contains q))) := by
  subst hx
  obtain ⟨hU, hR, hRU, hUR⟩ := hw
  have hR' := hR
  have hRU' := hRU
  have hUR' := hUR
  simp only [partsRefs, List.map_append, List.map_cons] at hR' hRU' hUR'
  rw [← List.append_assoc] at hR' hRU' hUR'
  have key := wf_step (A := P.flatMap refsOfProject ++ l.map carouselRef)
    (B := r.map carouselRef) (D := [carouselRef c]) (n := []) (U := U)
    hU hR' hRU' hUR' List.nodup_nil (fun f hf => absurd hf (List.not_mem_nil f))
  obtain ⟨k1, k2, k3, k4⟩ := key
  simp only [List.append_nil, List.nil_append] at k1 k2 k3 k4
  refine ⟨k1, ?_, ?_, ?_⟩
  · simp only [partsRefs, List.map_append]
    rw [← List.append_assoc]
    exact k2
  · intro x hx2
    simp only [partsRefs, List.map_append] at hx2
    rw [← List.append_assoc] at hx2
    exact k3 x hx2
  · intro x hx2
    simp only [partsRefs, List.map_append]
    rw [← List.append_assoc]
    exact k4 x hx2

/-- **C2 amended**: the reference/file correspondence (`wf`) is an
invariant of every *successfully completing* operation, given multer's
fresh generated names: after the operation, every stored image reference
corresponds to exactly one file in the upload directory, no record points
at a deleted file, and no file is orphaned.  (Operations that fail can
break it: see the counterexample — a 404 Update strands its uploaded
files; List operations do not change state at all, cf. `getProjects`.) -/
theorem consistency_preserved_on_success :
    (∀ (newId : String) (title description : Option String) (files : List String)
       (s : ServerState) (res : ApiResult Project) (s' : ServerState),
       wf s → freshFiles files s →
       postProject newId title description files s = (res, s') →
       res.success = true → wf s') ∧
    (∀ (u : String → Bool) (pid : String) (title description : Option String)
       (files : List String) (s : ServerState) (res : ApiResult Project)
       (s' : ServerState), wf s → freshFiles files s →
       putProject u pid title description files s = (res, s') →
       res.success = true → wf s') ∧
    (∀ (u : String → Bool) (pid : String) (s : ServerState)
       (res : ApiResult String) (s' : ServerState), wf s →
       deleteProject u pid s = (res, s') → res.success = true → wf s') ∧
    (∀ (newId : String) (file : Option String) (s : ServerState)
       (res : ApiResult CarouselImage) (s' : ServerState), wf s →
       freshFiles file.toList s → postCarousel newId file s = (res, s') →
       res.success = true → wf s') ∧
    (∀ (u : String → Bool) (pid : String) (s : ServerState)
       (res : ApiResult String) (s' : ServerState), wf s →
       deleteCarousel u pid s = (res, s') → res.success = true → wf s') ∧
    (∀ (validURL : String → Bool) (newId : String) (url title : Option String)
       (s : ServerState) (res : ApiResult Video) (s' : ServerState), wf s →
       postVideo validURL newId url title s = (res, s') →
       res.success = true → wf s') ∧
    (∀ (pid : String) (s : ServerState) (res : ApiResult String)
       (s' : ServerState), wf s → deleteVideo pid s = (res, s') →
       res.success = true → wf s') := by
  refine ⟨?_, ?_, ?_, ?_, ?_, ?_, ?_⟩
  · intro newId t d files s res s' hwf hfr h hs
    by_cases hl : files.length = 0
    · simp only [postProject, hl, if_true] at h
      obtain ⟨rfl, rfl⟩ := Prod.mk.injEq .. ▸ h
      simp [ApiResult.success] at hs
    · simp only [postProject, hl, if_false] at h
      obtain ⟨rfl, rfl⟩ := Prod.mk.injEq .. ▸ h
      exact wfParts_create_project _ hwf hfr.1 hfr.2 rfl
  · intro u pid t d files s res s' hwf hfr h hs
    rcases hsp : splitFirst (fun p => p.id == pid) s.projects with _ | ⟨l, p, r⟩
    · simp only [putProject, hsp] at h
      obtain ⟨rfl, rfl⟩ := Prod.mk.injEq .. ▸ h
      simp [ApiResult.success] at hs
    · obtain ⟨hx, -, -⟩ := splitFirst_eq_some hsp
      by_cases hf : files.isEmpty
      · obtain rfl : files = [] := List.isEmpty_iff.mp hf
        simp only [putProject, hsp, hf, if_true] at h
        obtain ⟨rfl, rfl⟩ := Prod.mk.injEq .. ▸ h
        have hres := wfParts_update_project_fields
          ({ p with
            title := if truthy t then t else p.title,
            description := if truthy d then d else p.description } : Project)
          hx hwf rfl
        show wfParts (l ++ { p with
            title := if truthy t then t else p.title,
            description := if truthy d then d else p.description } :: r)
          s.carouselImages (s.uploads ++ List.map localOf [])
        simpa using hres
      · rcases hdf : deleteFiles u (p.imageUrls.map urlToLocal)
            (s.uploads ++ files.map localOf) with ⟨b, ups1⟩
        cases b with
        | false =>
          simp only [putProject, hsp, hf, if_false, hdf] at h
          obtain ⟨rfl, rfl⟩ := Prod.mk.injEq .. ▸ h
          simp [ApiResult.success] at hs
        | true =>
          simp only [putProject, hsp, hf, if_false, hdf] at h
          obtain ⟨rfl, rfl⟩ := Prod.mk.injEq .. ▸ h
          have he := deleteFiles_true hdf
          subst he
          exact wfParts_update_project _ hx hwf hfr.1 hfr.2 rfl
  · intro u pid s res s' hwf h hs
    rcases hsp : splitFirst (fun p => p.id == pid) s.projects with _ | ⟨l, p, r⟩
    · simp only [deleteProject, hsp] at h
      obtain ⟨rfl, rfl⟩ := Prod.mk.injEq .. ▸ h
      simp [ApiResult.success] at hs
    · obtain ⟨hx, -, -⟩ := splitFirst_eq_some hsp
      rcases hdf : deleteFiles u (p.imageUrls.map urlToLocal) s.uploads with ⟨b, ups1⟩
      cases b with
      | false =>
        simp only [deleteProject, hsp, hdf] at h
        obtain ⟨rfl, rfl⟩ := Prod.mk.injEq .. ▸ h
        simp [ApiResult.success] at hs
      | true =>
        simp only [deleteProject, hsp, hdf] at h
        obtain ⟨rfl, rfl⟩ := Prod.mk.injEq .. ▸ h
        have he := deleteFiles_true hdf
        subst he
        exact wfParts_delete_project hx hwf
  · intro newId file s res s' hwf hfr h hs
    cases file with
    | none =>
      simp only [postCarousel] at h
      obtain ⟨rfl, rfl⟩ := Prod.mk.injEq .. ▸ h
      simp [ApiResult.success] at hs
    | some f =>
      simp only [postCarousel] at h
      obtain ⟨rfl, rfl⟩ := Prod.mk.injEq .. ▸ h
      exact wfParts_create_carousel _ hwf (hfr.2 (localOf f) (by simp)) rfl
  · intro u pid s res s' hwf h hs
    rcases hsp : splitFirst (fun c => c._id == pid) s.carouselImages with _ | ⟨l, c, r⟩
    · simp only [deleteCarousel, hsp] at h
      obtain ⟨rfl, rfl⟩ := Prod.mk.injEq .. ▸ h
      simp [ApiResult.success] at hs
    · obtain ⟨hx, -, -⟩ := splitFirst_eq_some hsp
      rcases hdf : deleteFiles u [urlToLocal c.url] s.uploads with ⟨b, ups1⟩
      cases b with
      | false =>
        simp only [deleteCarousel, hsp, hdf] at h
        obtain ⟨rfl, rfl⟩ := Prod.mk.injEq .. ▸ h
        simp [ApiResult.success] at hs
      | true =>
        simp only [deleteCarousel, hsp, hdf] at h
        obtain ⟨rfl, rfl⟩ := Prod.mk.injEq .. ▸ h
        have he := deleteFiles_true hdf
        subst he
        exact wfParts_delete_carousel hx hwf
  · intro v newId url title s res s' hwf h hs
    by_cases h1 : (truthy url && truthy title) = true
    · by_cases h2 : v (url.getD "") = true
      · simp only [postVideo, h1, h2, if_true] at h
        obtain ⟨rfl, rfl⟩ := Prod.mk.injEq .. ▸ h
        exact hwf
      · simp only [postVideo, h1, h2, if_true, if_false] at h
        obtain ⟨rfl, rfl⟩ := Prod.mk.injEq .. ▸ h
        simp [ApiResult.success] at hs
    · simp only [postVideo, h1] at h
      obtain ⟨rfl, rfl⟩ := Prod.mk.injEq .. ▸ h
      simp [ApiResult.success] at hs
  · intro pid s res s' hwf h hs
    rcases hsp : splitFirst (fun v => v.id == pid) s.videos with _ | ⟨l, v, r⟩
    · simp only [deleteVideo, hsp] at h
      obtain ⟨rfl, rfl⟩ := Prod.mk.injEq .. ▸ h
      simp [ApiResult.success] at hs
    · simp only [deleteVideo, hsp] at h
      obtain ⟨rfl, rfl⟩ := Prod.mk.injEq .. ▸ h
      exact hwf

/-- Witness for the amended C2: the empty store satisfies the invariant
and still does after a successful carousel-image creation. -/
theorem consistency_preserved_on_success_witness :
    wf ((postCarousel "c1" (some "c.png") st0).2) :=
  consistency_preserved_on_success.2.2.2.1 "c1" (some "c.png") st0
    (postCarousel "c1" (some "c.png") st0).1
    (postCarousel "c1" (some "c.png") st0).2
    (by decide) (by decide) rfl rfl

/-! ## C9: identifier uniqueness over the process lifetime -/

/-- One client request against the server, with arguments as handed over
by the routing/upload layer (files are the multer-generated names). -/
inductive Op where
  | createProject (title description : Option String) (files : List String)
  | updateProject (pid : String) (title description : Option String)
      (files : List String)
  | removeProject (pid : String)
  | createCarousel (file : Option String)
  | removeCarousel (pid : String)
  | createVideo (url title : Option String)
  | removeVideo (pid : String)

/-- Trace state: the server state plus the uuid generator's call counter
and the log of identifiers assigned so far (a history variable recording
every record ever created, deleted or not). -/
structure RunState where
  srv : ServerState
  ctr : Nat
  log : List String

/-- Execute one request.  `gen` is the `uuidv4()` stream: in the source a
fresh uuid is drawn exactly on the paths that build a new record (after
validation), so the counter advances and the log grows precisely on a
successful create. -/
def stepOp (validURL u : String → Bool) (gen : Nat → String) (op : Op)
    (rs : RunState) : RunState :=
  match op with
  | .createProject t d fs =>
    match postProject (gen rs.ctr) t d fs rs.srv with
    | (.created _, s') => ⟨s', rs.ctr + 1, rs.log ++ [gen rs.ctr]⟩
    | (_, s') => ⟨s', rs.ctr, rs.log⟩
  | .updateProject pid t d fs =>
    ⟨(putProject u pid t d fs rs.srv).2, rs.ctr, rs.log⟩
  | .removeProject pid => ⟨(deleteProject u pid rs.srv).2, rs.ctr, rs.log⟩
  | .createCarousel f =>
    match postCarousel (gen rs.ctr) f rs.srv with
    | (.created _, s') => ⟨s', rs.ctr + 1, rs.log ++ [gen rs.ctr]⟩
    | (_, s') => ⟨s', rs.ctr, rs.log⟩
  | .removeCarousel pid => ⟨(deleteCarousel u pid rs.srv).2, rs.ctr, rs.log⟩
  | .createVideo url t =>
    match postVideo validURL (gen rs.ctr) url t rs.srv with
    | (.created _, s') => ⟨s', rs.ctr + 1, rs.log ++ [gen rs.ctr]⟩
    | (_, s') => ⟨s', rs.ctr, rs.log⟩
  | .removeVideo pid => ⟨(deleteVideo pid rs.srv).2, rs.ctr, rs.log⟩

/-- Execute a whole request trace. -/
def runOps (validURL u : String → Bool) (gen : Nat → String) :
    List Op → RunState → RunState
  | [], rs => rs
  | op :: ops, rs => runOps validURL u gen ops (stepOp validURL u gen op rs)

/-- A step either leaves counter and log alone or assigns exactly the next
generated identifier. -/
theorem stepOp_log (validURL u : String → Bool) (gen : Nat → String) (op : Op)
    (rs : RunState) :
    ((stepOp validURL u gen op rs).ctr = rs.ctr ∧
      (stepOp validURL u gen op rs).log = rs.log) ∨
    ((stepOp validURL u gen op rs).ctr = rs.ctr + 1 ∧
      (stepOp validURL u gen op rs).log = rs.log ++ [gen rs.ctr]) := by
  cases op with
  | createProject t d fs =>
    rcases h : postProject (gen rs.ctr) t d fs rs.srv with ⟨res, s'⟩
    cases res <;> simp [stepOp, h]
  | updateProject pid t d fs => exact Or.inl ⟨rfl, rfl⟩
  | removeProject pid => exact Or.inl ⟨rfl, rfl⟩
  | createCarousel f =>
    rcases h : postCarousel (gen rs.ctr) f rs.srv with ⟨res, s'⟩
    cases res <;> simp [stepOp, h]
  | removeCarousel pid => exact Or.inl ⟨rfl, rfl⟩
  | createVideo url t =>
    rcases h : postVideo validURL (gen rs.ctr) url t rs.srv with ⟨res, s'⟩
    cases res <;> simp [stepOp, h]
  | removeVideo pid => exact Or.inl ⟨rfl, rfl⟩

/-- Invariant of the trace: with an injective generator, every logged id
comes from an already-consumed counter value and the log stays
duplicate-free. -/
theorem runOps_log {validURL u : String → Bool} {gen : Nat → String}
    (hgen : Function.Injective gen) :
    ∀ (ops : List Op) (rs : RunState),
      (∀ x ∈ rs.log, ∃ k, k < rs.ctr ∧ x = gen k) → rs.log.Nodup →
      (∀ x ∈ (runOps validURL u gen ops rs).log,
         ∃ k, k < (runOps validURL u gen ops rs).ctr ∧ x = gen k) ∧
      (runOps validURL u gen ops rs).log.Nodup := by
  intro ops
  induction ops with
  | nil => intro rs h1 h2; exact ⟨h1, h2⟩
  | cons op ops ih =>
    intro rs h1 h2
    rw [runOps]
    apply ih
    · rcases stepOp_log validURL u gen op rs with ⟨hc, hl⟩ | ⟨hc, hl⟩
      · rw [hc, hl]; exact h1
      · rw [hc, hl]
        intro x hx
        rcases List.mem_append.1 hx with hx | hx
        · obtain ⟨k, hk, rfl⟩ := h1 x hx
          exact ⟨k, Nat.lt_succ_of_lt hk, rfl⟩
        · rw [List.mem_singleton.1 hx]
          exact ⟨rs.ctr, Nat.lt_succ_self _, rfl⟩
    · rcases stepOp_log validURL u gen op rs with ⟨hc, hl⟩ | ⟨hc, hl⟩
      · rw [hl]; exact h2
      · rw [hl]
        refine nodup_append_fresh h2
          (List.nodup_cons.2 ⟨List.not_mem_nil _, List.nodup_nil⟩) ?_
        intro f hf hmem
        rw [List.mem_singleton.1 hf] at hmem
        obtain ⟨k, hk, he⟩ := h1 _ hmem
        exact absurd (hgen he) (Nat.ne_of_gt hk)

/-- **C9**: with an injective uuid stream (the uuid collision-freeness
assumption), all identifiers ever assigned during a process lifetime —
across all creates of a trace, including records later deleted — are
pairwise distinct, so any two records ever created in the same collection
have distinct ids, and a Create after a Delete yields a fresh id even for
identical content; moreover Update never reassigns identifiers (Delete
only removes records), so ids are stable. -/
theorem identifier_uniqueness (validURL u : String → Bool) (gen : Nat → String)
    (hgen : Function.Injective gen) (ops : List Op) (s0 : ServerState) :
    ((runOps validURL u gen ops ⟨s0, 0, []⟩).log).Nodup ∧
    (∀ (u' : String → Bool) (pid : String) (title description : Option String)
       (files : List String) (s : ServerState),
       (putProject u' pid title description files s).2.projects.map Project.id =
         s.projects.map Project.id) := by
  constructor
  · exact (runOps_log hgen ops ⟨s0, 0, []⟩
      (fun x hx => absurd hx (List.not_mem_nil x)) List.nodup_nil).2
  · intro u' pid t d files s
    rcases hsp : splitFirst (fun p => p.id == pid) s.projects with _ | ⟨l, p, r⟩
    · simp [putProject, hsp]
    · obtain ⟨hx, -, -⟩ := splitFirst_eq_some hsp
      by_cases hf : files.isEmpty
      · simp only [putProject, hsp, hf, if_true]
        rw [hx]
        simp
      · rcases hdf : deleteFiles u' (p.imageUrls.map urlToLocal)
            (s.uploads ++ files.map localOf) with ⟨b, ups1⟩
        cases b with
        | false =>
          simp only [putProject, hsp, hf, if_false, hdf]
          rw [hx]
          simp
        | true =>
          simp only [putProject, hsp, hf, if_false, hdf]
          rw [hx]
          simp

/-- An injective generator standing in for the uuid stream. -/
def genEx : Nat → String := fun n => String.mk (List.replicate n 'a')

theorem genEx_injective : Function.Injective genEx := by
  intro a b h
  have h2 : List.replicate a 'a' = List.replicate b 'a' := by
    injection h
  have h3 := congrArg List.length h2
  simpa using h3

/-- Witness for C9: a trace that creates a video, deletes it, and creates
an identical one — the log of assigned ids has no duplicate. -/
theorem identifier_uniqueness_witness :
    ((runOps (fun _ => true) (fun _ => false) genEx
        [Op.createVideo (some "http://a.com") (some "A"),
         Op.removeVideo (genEx 0),
         Op.createVideo (some "http://a.com") (some "A")]
        ⟨st0, 0, []⟩).log).Nodup :=
  (identifier_uniqueness (fun _ => true) (fun _ => false) genEx genEx_injective
    [Op.createVideo (some "http://a.com") (some "A"),
     Op.removeVideo (genEx 0),
     Op.createVideo (some "http://a.com") (some "A")] st0).1
